import Mathlib

/-!
Verification development for the WhispraOS native loopback-capture addons
(src/native-wasapi-loopback/wasapi_loopback.cc and
src/native-coreaudio-loopback/coreaudio_loopback.cc).

The per-buffer DSP chain, frame packaging, process-name resolution and the
capture-session control flow are shallowly embedded below.  Floating-point
arithmetic of the source is modelled exactly over the rationals; the one-pole
smoothing coefficients (expf values) and the float square root are abstract
parameters constrained by the properties the source guarantees for them.
-/

/-- Clamp a mono sample to the interval from -1 to 1, mirroring the repeated
pattern "if (m > 1.0f) m = 1.0f; else if (m < -1.0f) m = -1.0f;" in both
wasapi_loopback.cc and coreaudio_loopback.cc. -/
def clamp1 (x : ℚ) : ℚ :=
  if x > 1 then 1 else if x < -1 then -1 else x

/-- Length of the resampled buffer.  Models wasapi_loopback.cc lines 263-265
and coreaudio_loopback.cc lines 248-250:
"size_t outLen = (size_t)((double)mono.size() * (double)outRate / (double)inRate);
if (outLen == 0) outLen = 1;" with outRate fixed at 16000.  The size_t cast of
the exact quotient is natural-number (floor) division. -/
def resampleLen (n inRate : ℕ) : ℕ :=
  let l := n * 16000 / inRate
  if l = 0 then 1 else l

/-- Linear-interpolation resampler to 16 kHz.  Models wasapi_loopback.cc lines
266-274 and coreaudio_loopback.cc lines 251-259: for output index i the source
position is i * inRate / 16000; the integer part selects the two neighbouring
input samples (indices clamped to the last valid one) and the fractional part
interpolates between them. -/
def resample (mono : List ℚ) (inRate : ℕ) : List ℚ :=
  (List.range (resampleLen mono.length inRate)).map (fun i =>
    let pos : ℚ := (i * inRate : ℕ) / (16000 : ℚ)
    let idx : ℕ := ⌊pos⌋.toNat
    let frac : ℚ := pos - (idx : ℚ)
    let a := mono.getD (if idx < mono.length then idx else mono.length - 1) 0
    let b := mono.getD (if idx + 1 < mono.length then idx + 1 else mono.length - 1) 0
    (1 - frac) * a + frac * b)

/-- Truncation toward zero of a rational, modelling the C cast "(int)q". -/
def ratTrunc (q : ℚ) : ℤ :=
  if 0 ≤ q then ⌊q⌋ else -⌊-q⌋

/-- Quantization of one post-limiter sample to int16.  Models
wasapi_loopback.cc lines 307-313 and coreaudio_loopback.cc lines 299-307:
clamp the float to the interval from -1 to 1, scale by 32767 adding half a
unit away from zero, cast to int (truncation), then clamp to the int16
range. -/
def quantize (x0 : ℚ) : ℤ :=
  let x := clamp1 x0
  let s := ratTrunc (x * 32767 + (if 0 ≤ x then (1 : ℚ) / 2 else -(1 : ℚ) / 2))
  if 32767 < s then 32767 else if s < -32768 then -32768 else s

/-- Peak absolute sample of a buffer.  Models the scan
"for (float v : resampled) { float av2 = v < 0 ? -v : v; if (av2 > peak) peak = av2; }"
at wasapi_loopback.cc lines 299-300 and coreaudio_loopback.cc lines 286-290,
starting from peak = 0. -/
def bufPeak (l : List ℚ) : ℚ :=
  l.foldl (fun p v => max p |v|) 0

/-- Nominal voice boost, "const float kVoiceBoost = 1.5f". -/
def kVoiceBoost : ℚ := 3 / 2

/-- Voice-boost gain selection.  Models wasapi_loopback.cc lines 302-304 and
coreaudio_loopback.cc lines 292-294:
"if (peak < 1e-6f) gain = kVoiceBoost;
else gain = (peak * kVoiceBoost > 0.99f) ? (0.99f / peak) : kVoiceBoost;". -/
def boostGain (peak : ℚ) : ℚ :=
  if peak < 1 / 1000000 then kVoiceBoost
  else if peak * kVoiceBoost > 99 / 100 then (99 / 100) / peak
  else kVoiceBoost

/-- Noise-floor update for one sample.  Models wasapi_loopback.cc lines
284-286 and coreaudio_loopback.cc lines 270-272:
"if (env < noiseFloor) noiseFloor = env;
else noiseFloor = noiseFloor + (env - noiseFloor) * (1.0f - aRise);
if (noiseFloor < 1e-6f) noiseFloor = 1e-6f;".
aRise abstracts the constant expf(-1/(0.5*16000)). -/
def noiseFloorUpdate (aRise envv floor : ℚ) : ℚ :=
  let nf := if envv < floor then envv else floor + (envv - floor) * (1 - aRise)
  if nf < 1 / 1000000 then 1 / 1000000 else nf

/-- Gate threshold, "float thr = noiseFloor * 2.5f + 1e-6f;"
(wasapi_loopback.cc line 288, coreaudio_loopback.cc line 274). -/
def gateThreshold (floor : ℚ) : ℚ :=
  floor * (5 / 2) + 1 / 1000000

/-- Pre-square-root gate target, "float tGain = (env > thr) ? 1.0f : (env / thr);"
(wasapi_loopback.cc line 289, coreaudio_loopback.cc line 275). -/
def gateTargetRaw (envv floor : ℚ) : ℚ :=
  if envv > gateThreshold floor then 1 else envv / gateThreshold floor

/-- Smoothing-coefficient selection,
"float a = (tGain < gainSmooth) ? aAtk : aRel;"
(wasapi_loopback.cc line 293, coreaudio_loopback.cc line 279). -/
def gateCoeffSelect (tGain g aAtk aRel : ℚ) : ℚ :=
  if tGain < g then aAtk else aRel

/-- Smoothed-gain update, "gainSmooth = tGain + (gainSmooth - tGain) * a;"
(wasapi_loopback.cc line 294, coreaudio_loopback.cc line 280). -/
def gainSmoothUpdate (tGain g a : ℚ) : ℚ :=
  tGain + (g - tGain) * a

/-- Initial smoothed gate gain, "float gainSmooth = 1.0f;"
(wasapi_loopback.cc line 207, coreaudio_loopback.cc line 794). -/
def gainSmoothInit : ℚ := 1

/-- Initial noise floor, "float noiseFloor = 0.003f;"
(wasapi_loopback.cc line 206, coreaudio_loopback.cc line 793). -/
def noiseFloorInit : ℚ := 3 / 1000

/-- Biquad coefficients of the high-pass filter (struct BiquadHPF in both
sources).  The cosf/sinf-derived values are abstract here. -/
structure Biquad where
  b0 : ℚ
  b1 : ℚ
  b2 : ℚ
  a1 : ℚ
  a2 : ℚ
deriving DecidableEq

/-- Biquad delay registers z1 and z2 of struct BiquadHPF. -/
structure BiquadState where
  z1 : ℚ
  z2 : ℚ
deriving DecidableEq

/-- One direct-form-II-transposed biquad step, BiquadHPF::process:
"float y = b0*x + z1; z1 = b1*x + z2 - a1*y; z2 = b2*x - a2*y; return y;". -/
def biquadProcess (c : Biquad) (st : BiquadState) (x : ℚ) : ℚ × BiquadState :=
  let y := c.b0 * x + st.z1
  (y, ⟨c.b1 * x + st.z2 - c.a1 * y, c.b2 * x - c.a2 * y⟩)

/-- Session DSP parameters: the four one-pole smoothing coefficients
aEnv, aRise, aAtk, aRel (each an expf(-1/(tau*16000)) value in the source)
and the float square root used for the soft knee, all abstracted. -/
structure GateParams where
  aEnv : ℚ
  aRise : ℚ
  aAtk : ℚ
  aRel : ℚ
  sqrtFn : ℚ → ℚ

/-- Per-session DSP state: biquad registers plus the three gate scalars env,
noiseFloor, gainSmooth. -/
structure DspState where
  hpf : BiquadState
  env : ℚ
  noiseFloor : ℚ
  gainSmooth : ℚ
deriving DecidableEq

/-- DSP state as initialized at session start (wasapi_loopback.cc lines
202-207, coreaudio_loopback.cc lines 790-794): zero delay registers, zero
envelope, noise floor 0.003, smoothed gain 1. -/
def dspInit : DspState := ⟨⟨0, 0⟩, 0, noiseFloorInit, gainSmoothInit⟩

/-- One sample of the high-pass + adaptive-noise-gate stage.  Models the body
of the loop at wasapi_loopback.cc lines 276-297 and coreaudio_loopback.cc
lines 262-283. -/
def gateStep (p : GateParams) (c : Biquad) (st : DspState) (x0 : ℚ) : ℚ × DspState :=
  let pr := biquadProcess c st.hpf x0
  let x := pr.1
  let av := |x|
  let env := p.aEnv * st.env + (1 - p.aEnv) * av
  let nf := noiseFloorUpdate p.aRise env st.noiseFloor
  let tGain := p.sqrtFn (gateTargetRaw env nf)
  let aSel := gateCoeffSelect tGain st.gainSmooth p.aAtk p.aRel
  let g := gainSmoothUpdate tGain st.gainSmooth aSel
  (x * g, ⟨pr.2, env, nf, g⟩)

/-- Run the gate stage over a whole buffer, threading the DSP state. -/
def gateRun (p : GateParams) (c : Biquad) : DspState → List ℚ → List ℚ × DspState
  | st, [] => ([], st)
  | st, x :: xs =>
    let r := gateStep p c st x
    let rest := gateRun p c r.2 xs
    (r.1 :: rest.1, rest.2)

/-- Two bytes of a uint16 stored little-endian. -/
def le16 (v : ℕ) : List ℕ :=
  [v % 256, v / 256 % 256]

/-- Four bytes of a uint32 stored little-endian. -/
def le32 (v : ℕ) : List ℕ :=
  [v % 256, v / 256 % 256, v / 65536 % 256, v / 16777216 % 256]

/-- ASCII bytes of a four-character tag as written by memcpy. -/
def asciiBytes (s : String) : List ℕ :=
  s.toList.map Char.toNat

/-- Two's-complement little-endian bytes of an int16 sample as stored by
memcpy of the int16 vector. -/
def int16LE (s : ℤ) : List ℕ :=
  [(s % 65536).toNat % 256, (s % 65536).toNat / 256]

/-- The 44-byte RIFF/WAVE header built at wasapi_loopback.cc lines 314-333
and coreaudio_loopback.cc lines 309-328, with channels = 1 and
sampleRate = 16000 as in the source. -/
def wavHeader (pcmDataSize : ℕ) : List ℕ :=
  let channels : ℕ := 1
  let sampleRate : ℕ := 16000
  let totalSize : ℕ := 36 + pcmDataSize
  asciiBytes "RIFF" ++ le32 totalSize ++ asciiBytes "WAVE" ++ asciiBytes "fmt " ++
    le32 16 ++ le16 1 ++ le16 channels ++ le32 sampleRate ++
    le32 (sampleRate * channels * 2) ++ le16 (channels * 2) ++ le16 16 ++
    asciiBytes "data" ++ le32 pcmDataSize

/-- A complete emitted frame: header followed by the PCM payload
(wasapi_loopback.cc line 334, coreaudio_loopback.cc line 329). -/
def wavFrame (samples : List ℤ) : List ℕ :=
  wavHeader (samples.length * 2) ++ samples.flatMap int16LE

/-- Whole per-buffer pipeline after mono mix-down: resample, gate, voice
boost, quantize, package.  Returns the emitted frame bytes and the updated
DSP state. -/
def processBuffer (p : GateParams) (c : Biquad) (inRate : ℕ) (st : DspState)
    (mono : List ℚ) : List ℕ × DspState :=
  let gr := gateRun p c st (resample mono inRate)
  let g := boostGain (bufPeak gr.1)
  (wavFrame (gr.1.map (fun x => quantize (x * g))), gr.2)

/-- Capture-engine state visible to the control surface: the atomic running
flag, the target PID and the session's DSP state (WasapiLoopbackCapture /
CoreAudioLoopbackCapture members). -/
structure CaptureState where
  running : Bool
  targetPid : ℕ
  dsp : DspState
deriving DecidableEq

/-- Synchronous part of Start.  Models WasapiLoopbackCapture::Start lines
71-75 ("if (running_) return false; running_ = true; ...; targetPid_ = pid;")
and the identical guard in CoreAudioLoopbackCapture::Start lines 558-566;
the DSP state is re-initialized for the new session. -/
def startCapture (s : CaptureState) (pid : ℕ) : Bool × CaptureState :=
  if s.running then (false, s)
  else (true, ⟨true, pid, dspInit⟩)

/-- Which WASAPI acquisition calls fail in one run of the capture thread
(wasapi_loopback.cc lines 81-173). -/
structure AcqFlags where
  coInitFail : Bool
  createEnumFail : Bool
  getEndpointFail : Bool
  activate3Fail : Bool
  activate1Fail : Bool
  mixFormatFail : Bool
  init3Fail : Bool
  init1Fail : Bool
  createEventFail : Bool
  setEventFail : Bool
  getServiceFail : Bool
  clientStartFail : Bool
deriving DecidableEq

/-- Whether the WASAPI capture thread gets through the whole acquisition
sequence and enters the capture loop, following the break structure of
wasapi_loopback.cc lines 93-174: enumerator, default endpoint, IAudioClient3
activation with IAudioClient fallback, mix format, Initialize (falling back
from client3 to client1 on line 150-163), event creation, SetEventHandle,
GetService, client Start. -/
def wasapiAcquireOk (f : AcqFlags) : Bool :=
  if f.coInitFail then false
  else if f.createEnumFail then false
  else if f.getEndpointFail then false
  else
    let have3 := !f.activate3Fail
    if !have3 && f.activate1Fail then false
    else if f.mixFormatFail then false
    else
      let rest := !f.createEventFail && !f.setEventFail &&
        !f.getServiceFail && !f.clientStartFail
      if have3 && !f.init3Fail then rest
      else if have3 && f.activate1Fail then false
      else if f.init1Fail then false
      else rest

/-- Effect of one run of the WASAPI capture thread on the session state,
restricted to the acquisition phase (wasapi_loopback.cc lines 81-363).
Returns the resulting state, whether all acquired resources were released,
and whether the capture loop was entered.  The only write to running_ in the
whole thread body is "running_ = false" on the CoInitializeEx failure path
(line 83); every other failure breaks out of the do-block into the
unconditional cleanup of lines 351-357, which releases every acquired
resource but leaves running_ untouched. -/
def wasapiThreadRun (f : AcqFlags) (s : CaptureState) : CaptureState × Bool × Bool :=
  if f.coInitFail then (⟨false, s.targetPid, s.dsp⟩, true, false)
  else (s, true, wasapiAcquireOk f)

/-- One fetch attempt inside the WASAPI drain loop: GetNextPacketSize
failing, reporting no packet, GetBuffer failing, or a successful buffer of
mono samples. -/
inductive Fetch where
  | packetFail : Fetch
  | noPacket : Fetch
  | bufFail : Fetch
  | buf : List ℚ → Fetch
deriving DecidableEq

/-- The inner drain loop of the Running state, wasapi_loopback.cc lines
223-343: each iteration asks for the next packet; a failed or empty
GetNextPacketSize and a failed GetBuffer all break out of the drain loop
(the outer loop then waits for the next event); a successful buffer is run
through the DSP pipeline and delivered.  Returns the session state after the
drain and the frames delivered. -/
def drainLoop (p : GateParams) (c : Biquad) (inRate : ℕ) :
    CaptureState → List Fetch → CaptureState × List (List ℕ)
  | s, [] => (s, [])
  | s, Fetch.packetFail :: _ => (s, [])
  | s, Fetch.noPacket :: _ => (s, [])
  | s, Fetch.bufFail :: _ => (s, [])
  | s, Fetch.buf mono :: rest =>
    let pr := processBuffer p c inRate s.dsp mono
    let r := drainLoop p c inRate ⟨s.running, s.targetPid, pr.2⟩ rest
    (r.1, pr.1 :: r.2)

/-- Base name of a process-name string: everything before the first '.',
modelling "size_t dotPos = name.find('.'); if (dotPos != std::string::npos)
name = name.substr(0, dotPos);" in both FindPidForProcess implementations
(wasapi_loopback.cc lines 494-497 and 502-506, coreaudio_loopback.cc lines
1079-1083 and 1087-1091). -/
def stripExt (s : String) : String :=
  String.mk (s.toList.takeWhile (fun c => c ≠ '.'))

/-- Lower-case an ASCII code, as _stricmp does byte-wise. -/
def lowerCode (n : ℕ) : ℕ :=
  if 65 ≤ n ∧ n ≤ 90 then n + 32 else n

/-- Case-insensitive string equality, modelling _stricmp == 0. -/
def lowerEq (a b : String) : Bool :=
  a.toList.map (fun c => lowerCode c.toNat) == b.toList.map (fun c => lowerCode c.toNat)

/-- FindPidForProcess of wasapi_loopback.cc (lines 480-518) over a process
snapshot given as (pid, name) pairs: first a case-insensitive (_stricmp)
exact pass over all processes, then a case-insensitive pass on the
first-dot-stripped base names, first match winning; 0 when neither pass
matches. -/
def findPidWasapi (procs : List (ℕ × String)) (query : String) : ℕ :=
  match procs.find? (fun pr => lowerEq pr.2 query) with
  | some pr => pr.1
  | none =>
    match procs.find? (fun pr => lowerEq (stripExt pr.2) (stripExt query)) with
    | some pr => pr.1
    | none => 0

/-- FindPidForProcess of coreaudio_loopback.cc (lines 1065-1103): identical
structure but both passes compare with operator== on std::string, i.e.
case-sensitively. -/
def findPidCoreAudio (procs : List (ℕ × String)) (query : String) : ℕ :=
  match procs.find? (fun pr => pr.2 == query) with
  | some pr => pr.1
  | none =>
    match procs.find? (fun pr => stripExt pr.2 == stripExt query) with
    | some pr => pr.1
    | none => 0

/-- Base name per the spec's words: everything before the final '.'
("strips the suffix after the final '.'", spec section 4.5). -/
def stripExtFinalSpec (s : String) : String :=
  if s.toList.contains '.' then
    String.mk ((s.toList.reverse.dropWhile (fun c => c ≠ '.')).drop 1).reverse
  else s

/-- Name resolution as the claim states it (spec section 4.5): exact
case-insensitive pass on the full name, then case-insensitive pass on the
final-dot-stripped base names, 0 when neither matches. -/
def findPidSpec (procs : List (ℕ × String)) (query : String) : ℕ :=
  match procs.find? (fun pr => lowerEq pr.2 query) with
  | some pr => pr.1
  | none =>
    match procs.find? (fun pr =>
        lowerEq (stripExtFinalSpec pr.2) (stripExtFinalSpec query)) with
    | some pr => pr.1
    | none => 0

/-- Amended name resolution for the WASAPI backend, written compositionally:
the first full-name case-insensitive match if any, otherwise the first
first-dot base-name case-insensitive match, otherwise 0. -/
def findPidAmendedWasapi (procs : List (ℕ × String)) (query : String) : ℕ :=
  match (procs.filter (fun pr => lowerEq pr.2 query)).head? with
  | some pr => pr.1
  | none =>
    match (procs.filter (fun pr =>
        lowerEq (stripExt pr.2) (stripExt query))).head? with
    | some pr => pr.1
    | none => 0

/-- Amended name resolution for the CoreAudio backend: same two passes but
with byte-exact comparison. -/
def findPidAmendedCoreAudio (procs : List (ℕ × String)) (query : String) : ℕ :=
  match (procs.filter (fun pr => pr.2 == query)).head? with
  | some pr => pr.1
  | none =>
    match (procs.filter (fun pr => stripExt pr.2 == stripExt query)).head? with
    | some pr => pr.1
    | none => 0

/-- Output length per the claim's words: round(N * 16000 / R) with a minimum
of one sample. -/
def specRoundLen (n inRate : ℕ) : ℕ :=
  max 1 (round ((n * 16000 : ℚ) / (inRate : ℚ))).toNat

/-- Round half away from zero, as the quantization claim states it. -/
def roundHalfAway (y : ℚ) : ℤ :=
  if 0 ≤ y then ⌊y + 1 / 2⌋ else -⌊-y + 1 / 2⌋

/-- Clamp an integer to the int16 range, as the quantization claim states
it. -/
def int16Clamp (s : ℤ) : ℤ :=
  max (-32768) (min 32767 s)

/-- Byte at a given offset of the header as the wire-format claim enumerates
it: "RIFF", uint32-LE 36+pcmDataSize at 4, "WAVE", "fmt ", uint32 16 at 16,
uint16 1 at 20, uint16 1 at 22, uint32 16000 at 24, uint32 32000 at 28,
uint16 2 at 32, uint16 16 at 34, "data", uint32 pcmDataSize at 40. -/
def specWavByte (pcm : ℕ) (i : ℕ) : ℕ :=
  if i < 4 then [82, 73, 70, 70].getD i 0
  else if i < 8 then (36 + pcm) / 256 ^ (i - 4) % 256
  else if i < 12 then [87, 65, 86, 69].getD (i - 8) 0
  else if i < 16 then [102, 109, 116, 32].getD (i - 12) 0
  else if i < 20 then (16 : ℕ) / 256 ^ (i - 16) % 256
  else if i < 22 then (1 : ℕ) / 256 ^ (i - 20) % 256
  else if i < 24 then (1 : ℕ) / 256 ^ (i - 22) % 256
  else if i < 28 then (16000 : ℕ) / 256 ^ (i - 24) % 256
  else if i < 32 then (32000 : ℕ) / 256 ^ (i - 28) % 256
  else if i < 34 then (2 : ℕ) / 256 ^ (i - 32) % 256
  else if i < 36 then (16 : ℕ) / 256 ^ (i - 34) % 256
  else if i < 40 then [100, 97, 116, 97].getD (i - 36) 0
  else pcm / 256 ^ (i - 40) % 256

/-- The 44-byte header as enumerated by the wire-format claim. -/
def specWavHeader (pcm : ℕ) : List ℕ :=
  (List.range 44).map (specWavByte pcm)

/-! ## Helper lemmas -/

theorem find?_eq_filter_head? {α : Type} (p : α → Bool) (l : List α) :
    l.find? p = (l.filter p).head? := by
  induction l with
  | nil => rfl
  | cons a t ih =>
    by_cases h : p a = true
    · rw [List.find?_cons_of_pos _ h, List.filter_cons_of_pos h]
      rfl
    · rw [List.find?_cons_of_neg _ h, List.filter_cons_of_neg h, ih]

theorem clamp1_bounds (x : ℚ) : -1 ≤ clamp1 x ∧ clamp1 x ≤ 1 := by
  unfold clamp1
  split
  · norm_num
  · split
    · norm_num
    · constructor <;> linarith [show ¬x > 1 from by assumption, show ¬x < -1 from by assumption]

theorem bufPeak_aux (l : List ℚ) (acc : ℚ) :
    acc ≤ l.foldl (fun p v => max p |v|) acc ∧
      ∀ x ∈ l, |x| ≤ l.foldl (fun p v => max p |v|) acc := by
  induction l generalizing acc with
  | nil => simp
  | cons a t ih =>
    obtain ⟨h1, h2⟩ := ih (max acc |a|)
    refine ⟨le_trans (le_max_left _ _) h1, ?_⟩
    intro x hx
    rcases List.mem_cons.mp hx with rfl | hx
    · exact le_trans (le_max_right _ _) h1
    · exact h2 x hx

theorem bufPeak_nonneg (l : List ℚ) : 0 ≤ bufPeak l :=
  (bufPeak_aux l 0).1

theorem le_bufPeak (l : List ℚ) (x : ℚ) (hx : x ∈ l) : |x| ≤ bufPeak l :=
  (bufPeak_aux l 0).2 x hx

theorem wavHeader_eq_spec (pcm : ℕ) : wavHeader pcm = specWavHeader pcm := by
  have hR : asciiBytes "RIFF" = [82, 73, 70, 70] := rfl
  have hW : asciiBytes "WAVE" = [87, 65, 86, 69] := rfl
  have hF : asciiBytes "fmt " = [102, 109, 116, 32] := rfl
  have hD : asciiBytes "data" = [100, 97, 116, 97] := rfl
  simp only [wavHeader, specWavHeader, hR, hW, hF, hD, le32, le16]
  norm_num [List.range_succ, specWavByte]

/-! ## Claim theorems -/

/-- C1: if a session is already Running, calling Start again returns false
and leaves the running flag, the target PID and the whole DSP/stream state of
the first session unchanged. -/
theorem start_while_running_rejected (s : CaptureState) (pid : ℕ)
    (h : s.running = true) :
    (startCapture s pid).1 = false ∧
      (startCapture s pid).2.running = s.running ∧
      (startCapture s pid).2.targetPid = s.targetPid ∧
      (startCapture s pid).2.dsp = s.dsp := by
  simp [startCapture, h]

/-- Witness for C1: a concrete Running session rejects a second Start
unchanged. -/
theorem start_while_running_rejected_witness :
    (startCapture ⟨true, 42, dspInit⟩ 7).1 = false ∧
      (startCapture ⟨true, 42, dspInit⟩ 7).2.running = (⟨true, 42, dspInit⟩ : CaptureState).running ∧
      (startCapture ⟨true, 42, dspInit⟩ 7).2.targetPid = (⟨true, 42, dspInit⟩ : CaptureState).targetPid ∧
      (startCapture ⟨true, 42, dspInit⟩ 7).2.dsp = (⟨true, 42, dspInit⟩ : CaptureState).dsp :=
  start_while_running_rejected ⟨true, 42, dspInit⟩ 7 rfl

/-- C2 counterexample: a 7-sample buffer at 64000 Hz resamples to
floor(7 * 16000 / 64000) = 1 sample, while the claimed round(7 * 16000 / 64000)
is 2. -/
theorem resample_length_not_round :
    (resample [0, 0, 0, 0, 0, 0, 0] 64000).length = 1 ∧
      specRoundLen 7 64000 = 2 := by
  constructor
  · rfl
  · norm_num [specRoundLen, round_eq]
    omega

/-- C2 amended: the resampler emits exactly floor(N * 16000 / R) output
samples, with a minimum of 1. -/
theorem resample_length_floor (mono : List ℚ) (inRate : ℕ) :
    (resample mono inRate).length = max 1 (mono.length * 16000 / inRate) := by
  simp only [resample, List.length_map, List.length_range, resampleLen]
  rcases Nat.eq_zero_or_pos (mono.length * 16000 / inRate) with h | h
  · simp [h]
  · rw [if_neg (by omega)]
    omega

/-- C3 counterexample: (a) the code strips at the first '.', not the final
one — for the query "my.app.exe" against a process "my.other.exe" both base
names become "my", so the code returns its PID 7 while the claimed
final-dot rule finds no match and returns 0; (b) the CoreAudio matcher is
case-sensitive — the query "CHROME.EXE" against "chrome.exe" returns 0 while
the claimed case-insensitive rule returns its PID 5. -/
theorem findPid_counterexample :
    findPidWasapi [(7, "my.other.exe")] "my.app.exe" = 7 ∧
      findPidSpec [(7, "my.other.exe")] "my.app.exe" = 0 ∧
      findPidCoreAudio [(5, "chrome.exe")] "CHROME.EXE" = 0 ∧
      findPidSpec [(5, "chrome.exe")] "CHROME.EXE" = 5 :=
  ⟨rfl, rfl, rfl, rfl⟩

/-- C3 amended: name resolution first returns the first process whose full
name matches the query (case-insensitively on the WASAPI backend, byte-exactly
on the CoreAudio backend); if none matches, it strips the suffix after the
FIRST '.' from both query and candidates and returns the first base-name
match under the same comparison; PID 0 when neither pass matches. -/
theorem findPid_first_dot_characterization (procs : List (ℕ × String)) (q : String) :
    findPidWasapi procs q = findPidAmendedWasapi procs q ∧
      findPidCoreAudio procs q = findPidAmendedCoreAudio procs q := by
  constructor
  · simp only [findPidWasapi, findPidAmendedWasapi, find?_eq_filter_head?]
  · simp only [findPidCoreAudio, findPidAmendedCoreAudio, find?_eq_filter_head?]

/-- C4 (code bug exhibit): in the WASAPI backend, when GetDefaultAudioEndpoint
fails during the capture thread of Start, every acquired resource is released
by the unconditional cleanup block, but the running flag is left true (only
the CoInitializeEx failure path resets it), so the session is not back in
Idle and a subsequent Start is rejected instead of succeeding. -/
theorem wasapi_start_failure_leaves_running :
    wasapiAcquireOk ⟨false, false, true, false, false, false, false, false, false, false, false, false⟩ = false ∧
      (wasapiThreadRun ⟨false, false, true, false, false, false, false, false, false, false, false, false⟩
        ⟨true, 0, dspInit⟩).2.1 = true ∧
      (wasapiThreadRun ⟨false, false, true, false, false, false, false, false, false, false, false, false⟩
        ⟨true, 0, dspInit⟩).1.running = true ∧
      (startCapture (wasapiThreadRun ⟨false, false, true, false, false, false, false, false, false, false, false, false⟩
        ⟨true, 0, dspInit⟩).1 5).1 = false :=
  ⟨rfl, rfl, rfl, rfl⟩

/-- C5: the emitted frame starts with the 44-byte header whose bytes are
exactly those the wire-format claim enumerates (offset 4 holding the
little-endian uint32 36 + pcmDataSize, offset 40 holding pcmDataSize),
followed by the little-endian int16 payload; for pcmDataSize = 32000 the
total-size field holds 32036 = [36, 125, 0, 0]. -/
theorem wavHeader_matches_wire_format (pcm : ℕ) (samples : List ℤ) :
    wavHeader pcm = specWavHeader pcm ∧
      ((wavHeader 32000).drop 4).take 4 = [36, 125, 0, 0] ∧
      wavFrame samples = specWavHeader (samples.length * 2) ++ samples.flatMap int16LE := by
  refine ⟨wavHeader_eq_spec pcm, rfl, ?_⟩
  rw [wavFrame, wavHeader_eq_spec]

/-- C6: the quantizer computes round-half-away-from-zero of the sample
clamped to the interval from -1 to 1 and scaled by 32767, clamped to the
int16 range; the C truncating cast together with the signed half-unit offset
realizes exactly that rounding, and the final int clamps never bite. -/
theorem quantize_eq_round_half_away (x : ℚ) :
    quantize x = int16Clamp (roundHalfAway (clamp1 x * 32767)) := by
  obtain ⟨hl, hu⟩ := clamp1_bounds x
  by_cases h : 0 ≤ clamp1 x
  · have hy0 : (0 : ℚ) ≤ clamp1 x * 32767 := by nlinarith
    have hfl0 : 0 ≤ ⌊clamp1 x * 32767 + 1 / 2⌋ := Int.le_floor.mpr (by push_cast; linarith)
    have hfl1 : ⌊clamp1 x * 32767 + 1 / 2⌋ ≤ 32767 := by
      have : ⌊clamp1 x * 32767 + 1 / 2⌋ < 32768 := Int.floor_lt.mpr (by push_cast; nlinarith)
      omega
    simp only [quantize, ratTrunc, roundHalfAway, int16Clamp]
    rw [if_pos h, if_pos (by linarith : (0 : ℚ) ≤ clamp1 x * 32767 + 1 / 2), if_pos hy0]
    rw [if_neg (by omega), if_neg (by omega)]
    omega
  · push_neg at h
    have hy0 : clamp1 x * 32767 < 0 := by nlinarith
    have harg : clamp1 x * 32767 + -(1 : ℚ) / 2 < 0 := by linarith
    have hfl0 : 0 ≤ ⌊-(clamp1 x * 32767) + 1 / 2⌋ := Int.le_floor.mpr (by push_cast; linarith)
    have hfl1 : ⌊-(clamp1 x * 32767) + 1 / 2⌋ ≤ 32767 := by
      have : ⌊-(clamp1 x * 32767) + 1 / 2⌋ < 32768 := Int.floor_lt.mpr (by push_cast; nlinarith)
      omega
    simp only [quantize, ratTrunc, roundHalfAway, int16Clamp]
    rw [if_neg (not_le.mpr h), if_neg (not_le.mpr harg), if_neg (not_le.mpr hy0)]
    have hneg : -(clamp1 x * 32767 + -(1 : ℚ) / 2) = -(clamp1 x * 32767) + 1 / 2 := by ring
    rw [hneg]
    rw [if_neg (by omega), if_neg (by omega)]
    omega

/-- C7 counterexample: with the envelope at 0 below the current floor 0.003,
the claim says the floor drops to the envelope (that is, to 0), but the code
clamps the drop at 1e-6, so the updated floor is 1e-6, not 0.  (The drop
branch does not use the rise coefficient; it is fixed at 1/2 here.) -/
theorem noiseFloor_drop_counterexample :
    (0 : ℚ) < 3 / 1000 ∧
      noiseFloorUpdate (1 / 2) 0 (3 / 1000) = 1 / 1000000 ∧
      noiseFloorUpdate (1 / 2) 0 (3 / 1000) ≠ 0 := by
  refine ⟨by norm_num, ?_, ?_⟩ <;> norm_num [noiseFloorUpdate]

/-- C7 amended: after every update the noise floor is at least 1e-6; when the
envelope is below the current floor the floor drops immediately to
max(envelope, 1e-6); otherwise (with the floor already at least 1e-6, as the
initial value 0.003 and every update guarantee) it rises by exactly
(envelope - floor) * (1 - aRise), staying between the old floor and the
envelope, hence never overshooting the envelope. -/
theorem noiseFloor_update_props (a e f : ℚ) (ha0 : 0 < a) (ha1 : a < 1)
    (hf : 1 / 1000000 ≤ f) :
    1 / 1000000 ≤ noiseFloorUpdate a e f ∧
      (e < f → noiseFloorUpdate a e f = max e (1 / 1000000)) ∧
      (f ≤ e →
        noiseFloorUpdate a e f = f + (e - f) * (1 - a) ∧
        f ≤ noiseFloorUpdate a e f ∧ noiseFloorUpdate a e f ≤ e) := by
  have hup : noiseFloorUpdate a e f =
      if (if e < f then e else f + (e - f) * (1 - a)) < 1 / 1000000 then 1 / 1000000
      else if e < f then e else f + (e - f) * (1 - a) := rfl
  refine ⟨?_, ?_, ?_⟩
  · rw [hup]
    rcases lt_or_le (if e < f then e else f + (e - f) * (1 - a)) (1 / 1000000 : ℚ) with h | h
    · rw [if_pos h]
    · rw [if_neg (not_lt.mpr h)]
      exact h
  · intro he
    rw [hup, if_pos he]
    rcases le_or_lt (1 / 1000000 : ℚ) e with h | h
    · rw [if_neg (not_lt.mpr h), max_eq_left h]
    · rw [if_pos h, max_eq_right h.le]
  · intro he
    have hrise : (0 : ℚ) ≤ (e - f) * (1 - a) := by nlinarith
    have hval : noiseFloorUpdate a e f = f + (e - f) * (1 - a) := by
      rw [hup, if_neg (not_lt.mpr he), if_neg (not_lt.mpr (by linarith))]
    refine ⟨hval, by rw [hval]; linarith, ?_⟩
    rw [hval]
    nlinarith

/-- Witness for C7 amended: a concrete rise step with aRise = 1/2, envelope
1/100 and floor 1/250 lands at 7/1000, between the floor and the envelope. -/
theorem noiseFloor_update_props_witness :
    (1 : ℚ) / 1000000 ≤ noiseFloorUpdate (1 / 2) (1 / 100) (1 / 250) ∧
      ((1 : ℚ) / 250 ≤ 1 / 100 →
        noiseFloorUpdate (1 / 2) (1 / 100) (1 / 250) = 1 / 250 + (1 / 100 - 1 / 250) * (1 - 1 / 2) ∧
        (1 : ℚ) / 250 ≤ noiseFloorUpdate (1 / 2) (1 / 100) (1 / 250) ∧
        noiseFloorUpdate (1 / 2) (1 / 100) (1 / 250) ≤ 1 / 100) :=
  ⟨(noiseFloor_update_props (1 / 2) (1 / 100) (1 / 250) (by norm_num) (by norm_num) (by norm_num)).1,
    (noiseFloor_update_props (1 / 2) (1 / 100) (1 / 250) (by norm_num) (by norm_num) (by norm_num)).2.2⟩

/-- C8: on every gated buffer the voice-boost step uses the peak absolute
sample; a near-silent buffer (peak below 1e-6) gets the nominal boost 1.5,
a buffer whose boosted peak would exceed 0.99 gets the limiter gain
0.99 / peak, making peak * gain exactly 0.99, and otherwise the nominal 1.5
applies; in every case no boosted sample exceeds 0.99 in magnitude before
clamping. -/
theorem voiceBoost_props (buf : List ℚ) :
    (bufPeak buf < 1 / 1000000 → boostGain (bufPeak buf) = kVoiceBoost) ∧
      (1 / 1000000 ≤ bufPeak buf → 99 / 100 < bufPeak buf * kVoiceBoost →
        boostGain (bufPeak buf) = (99 / 100) / bufPeak buf ∧
        bufPeak buf * boostGain (bufPeak buf) = 99 / 100) ∧
      (bufPeak buf * kVoiceBoost ≤ 99 / 100 → boostGain (bufPeak buf) = kVoiceBoost) ∧
      ∀ x ∈ buf, |x * boostGain (bufPeak buf)| ≤ 99 / 100 := by
  have hpk := bufPeak_nonneg buf
  refine ⟨?_, ?_, ?_, ?_⟩
  · intro h
    rw [boostGain, if_pos h]
  · intro h1 h2
    have hne : bufPeak buf ≠ 0 := by positivity
    have hg : boostGain (bufPeak buf) = (99 / 100) / bufPeak buf := by
      rw [boostGain, if_neg (not_lt.mpr h1), if_pos h2]
    refine ⟨hg, ?_⟩
    rw [hg]
    field_simp
    ring
  · intro h
    rw [boostGain]
    rcases lt_or_le (bufPeak buf) (1 / 1000000 : ℚ) with hc | hc
    · rw [if_pos hc]
    · rw [if_neg (not_lt.mpr hc), if_neg (not_lt.mpr h)]
  · intro x hx
    have hxb := le_bufPeak buf x hx
    have hxa : (0 : ℚ) ≤ |x| := abs_nonneg x
    rw [abs_mul]
    rw [boostGain]
    rcases lt_or_le (bufPeak buf) (1 / 1000000 : ℚ) with hc | hc
    · rw [if_pos hc, kVoiceBoost]
      rw [abs_of_nonneg (by norm_num : (0 : ℚ) ≤ 3 / 2)]
      nlinarith
    · rw [if_neg (not_lt.mpr hc)]
      rcases lt_or_le (99 / 100 : ℚ) (bufPeak buf * kVoiceBoost) with hd | hd
      · rw [if_pos hd]
        have hpos : (0 : ℚ) < bufPeak buf := by linarith
        rw [abs_of_nonneg (by positivity : (0 : ℚ) ≤ 99 / 100 / bufPeak buf)]
        rw [div_eq_mul_inv]
        have hinv : (0 : ℚ) ≤ (bufPeak buf)⁻¹ := by positivity
        calc |x| * (99 / 100 * (bufPeak buf)⁻¹)
            ≤ bufPeak buf * (99 / 100 * (bufPeak buf)⁻¹) := by nlinarith
          _ = 99 / 100 := by
            field_simp
            ring
      · rw [if_neg (not_lt.mpr hd), kVoiceBoost] at *
        rw [abs_of_nonneg (by norm_num : (0 : ℚ) ≤ 3 / 2)]
        nlinarith

/-- Witness for C8: the buffer with single sample 4/5 has peak 4/5, its
boosted peak 1.2 exceeds 0.99, and the limiter makes peak times gain exactly
0.99. -/
theorem voiceBoost_props_witness :
    (1 : ℚ) / 1000000 ≤ bufPeak [(4 : ℚ) / 5] ∧
      (99 : ℚ) / 100 < bufPeak [(4 : ℚ) / 5] * kVoiceBoost ∧
      bufPeak [(4 : ℚ) / 5] * boostGain (bufPeak [(4 : ℚ) / 5]) = 99 / 100 := by
  have hb : bufPeak [(4 : ℚ) / 5] = 4 / 5 := by norm_num [bufPeak]
  refine ⟨by rw [hb]; norm_num, by rw [hb, kVoiceBoost]; norm_num, ?_⟩
  exact ((voiceBoost_props [(4 : ℚ) / 5]).2.1 (by rw [hb]; norm_num)
    (by rw [hb, kVoiceBoost]; norm_num)).2

/-- C9: a failed GetNextPacketSize, an empty packet, or a failed GetBuffer
only ends the current drain iteration; no matter how a drain run interleaves
failures and processed buffers, the session's running flag (and target PID)
are exactly what they were before the drain, so a Running session stays
Running and only Start/Stop ever change the flag.  (The CoreAudio
InputCallback behaves the same way: a failed AudioUnitRender is logged and
the callback returns without touching running_.) -/
theorem drain_preserves_running (p : GateParams) (c : Biquad) (inRate : ℕ)
    (s : CaptureState) (fs : List Fetch) :
    ((drainLoop p c inRate s fs).1.running = s.running ∧
      (drainLoop p c inRate s fs).1.targetPid = s.targetPid) := by
  induction fs generalizing s with
  | nil => exact ⟨rfl, rfl⟩
  | cons f rest ih =>
    cases f with
    | packetFail => exact ⟨rfl, rfl⟩
    | noPacket => exact ⟨rfl, rfl⟩
    | bufFail => exact ⟨rfl, rfl⟩
    | buf mono =>
      have h := ih ⟨s.running, s.targetPid, (processBuffer p c inRate s.dsp mono).2⟩
      exact ⟨h.1, h.2⟩

/-- C10: the smoothed gate gain starts at 1; the pre-knee gate ratio is in
the unit interval because the envelope is nonnegative and the threshold
2.5 * noiseFloor + 1e-6 is strictly positive, so its square root t is in the
unit interval; the update picks one of the two smoothing coefficients (each
in the open unit interval) and forms a convex combination of t and the
previous gain, so the new gain stays in the unit interval, and multiplying a
sample by it never increases its magnitude. -/
theorem gainSmooth_bounds (envv nf g aAtk aRel t : ℚ)
    (henv : 0 ≤ envv) (hnf : 0 ≤ nf) (hg0 : 0 ≤ g) (hg1 : g ≤ 1)
    (hA0 : 0 < aAtk) (hA1 : aAtk < 1) (hR0 : 0 < aRel) (hR1 : aRel < 1)
    (ht0 : 0 ≤ t) (ht : t * t = gateTargetRaw envv nf) :
    gainSmoothInit = 1 ∧
      0 < gateThreshold nf ∧
      0 ≤ gateTargetRaw envv nf ∧ gateTargetRaw envv nf ≤ 1 ∧
      t ≤ 1 ∧
      0 ≤ gainSmoothUpdate t g (gateCoeffSelect t g aAtk aRel) ∧
      gainSmoothUpdate t g (gateCoeffSelect t g aAtk aRel) ≤ 1 ∧
      ∀ x : ℚ, |x * gainSmoothUpdate t g (gateCoeffSelect t g aAtk aRel)| ≤ |x| := by
  have hthr : 0 < gateThreshold nf := by
    rw [gateThreshold]
    nlinarith
  have hr0 : 0 ≤ gateTargetRaw envv nf := by
    rw [gateTargetRaw]
    split
    · norm_num
    · positivity
  have hr1 : gateTargetRaw envv nf ≤ 1 := by
    rw [gateTargetRaw]
    split
    · norm_num
    · rw [div_le_one hthr]
      linarith [show ¬envv > gateThreshold nf from by assumption]
  have ht1 : t ≤ 1 := by nlinarith [ht.symm ▸ hr1]
  have hsel : 0 < gateCoeffSelect t g aAtk aRel ∧ gateCoeffSelect t g aAtk aRel < 1 := by
    rw [gateCoeffSelect]
    split
    · exact ⟨hA0, hA1⟩
    · exact ⟨hR0, hR1⟩
  obtain ⟨hs0, hs1⟩ := hsel
  have hu0 : 0 ≤ gainSmoothUpdate t g (gateCoeffSelect t g aAtk aRel) := by
    rw [gainSmoothUpdate]
    nlinarith
  have hu1 : gainSmoothUpdate t g (gateCoeffSelect t g aAtk aRel) ≤ 1 := by
    rw [gainSmoothUpdate]
    nlinarith
  refine ⟨rfl, hthr, hr0, hr1, ht1, hu0, hu1, ?_⟩
  intro x
  rw [abs_mul, abs_of_nonneg hu0]
  nlinarith [abs_nonneg x]

/-- Witness for C10: with zero envelope and zero floor the gate ratio is 0,
its square root is 0, and one update from gain 1 with attack coefficient 1/2
lands at 1/2, inside the unit interval. -/
theorem gainSmooth_bounds_witness :
    (0 : ℚ) ≤ 0 ∧ (0 : ℚ) * 0 = gateTargetRaw 0 0 ∧
      0 ≤ gainSmoothUpdate 0 1 (gateCoeffSelect 0 1 (1 / 2) (3 / 4)) ∧
      gainSmoothUpdate 0 1 (gateCoeffSelect 0 1 (1 / 2) (3 / 4)) ≤ 1 :=
  ⟨le_refl 0, by norm_num [gateTargetRaw, gateThreshold],
    (gainSmooth_bounds 0 0 1 (1 / 2) (3 / 4) 0 (le_refl 0) (le_refl 0) (by norm_num)
      (by norm_num) (by norm_num) (by norm_num) (by norm_num) (by norm_num) (le_refl 0)
      (by norm_num [gateTargetRaw, gateThreshold])).2.2.2.2.2.1,
    (gainSmooth_bounds 0 0 1 (1 / 2) (3 / 4) 0 (le_refl 0) (le_refl 0) (by norm_num)
      (by norm_num) (by norm_num) (by norm_num) (by norm_num) (by norm_num) (le_refl 0)
      (by norm_num [gateTargetRaw, gateThreshold])).2.2.2.2.2.2.1⟩
